import Mathlib

/-!
Verification of the Jupyter kernel bridge (`resources/jupyter/bridge.py`).

The bridge is a JSON-lines relay between a parent process (stdin/stdout)
and a Jupyter kernel.  This file gives a shallow embedding of its relay
core: the correlation table (`register_msg` / `get_req_id`), the IOPub
listener's per-message classification (`handleIopub`), the command
dispatcher's per-line behaviour (`dispatchLine` / `runLines`), the startup
sequence (`startup`), the IOPub polling loop (`iopubLoop`), and a small
transition system for the lock-guarded `emit` writer.

External effects (the kernel, the channels) are modelled as oracles: the
kernel-assigned message id returned by `kc.execute`, and the
success/failure outcome of `km.interrupt_kernel` and of
`km.restart_kernel` + `kc.wait_for_ready`.
-/

namespace Bridge

/-- A value stored under a media-type key in a `display_data` /
`execute_result` payload: either an already-flat string or a list of text
fragments.  (`bridge.py` joins list values with `"".join(v)`.) -/
inductive DataVal where
  | str (s : String)
  | lst (xs : List String)
deriving DecidableEq, Repr

/-- One payload value as flattened by the listener:
`"".join(v) if isinstance(v, list) else v` (bridge.py line 173). -/
def flattenVal : DataVal → DataVal
  | .lst xs => .str (String.join xs)
  | .str s => .str s

/-- The whole-dict flattening loop of bridge.py lines 171-173. -/
def flattenData (d : List (String × DataVal)) : List (String × DataVal) :=
  d.map (fun kv => (kv.1, flattenVal kv.2))

/-- The `content` dict of a kernel IOPub message, with exactly the fields
the listener reads.  `Option` marks fields read through `.get` with a
default applied at the read site. -/
structure KContent where
  name : Option String := none
  text : Option String := none
  data : List (String × DataVal) := []
  ename : Option String := none
  evalue : Option String := none
  traceback : List String := []
  execution_count : Option Int := none
  execution_state : Option String := none
deriving DecidableEq, Repr

/-- A kernel IOPub message as read by `iopub_listener`:
`msg.get("msg_type", "")`, `msg.get("parent_header", {}).get("msg_id")`,
`msg.get("content", {})`.  `parent_msg_id = none` covers both a missing
`parent_header` and a missing `msg_id` inside it. -/
structure KMsg where
  msg_type : String := ""
  parent_msg_id : Option String := none
  content : KContent := {}
deriving DecidableEq, Repr

/-- The correlation table `_msg_map`: kernel msg_id → request id (which may
itself be null).  A Python dict; we model it as an association list where
the most recent binding for a key shadows older ones, matching dict
assignment. -/
def MsgMap : Type := List (String × Option String)

/-- `register_msg` (bridge.py lines 133-135): `_msg_map[msg_id] = req_id`. -/
def register_msg (m : MsgMap) (msg_id : String) (req_id : Option String) : MsgMap :=
  (msg_id, req_id) :: m

/-- `get_req_id` (bridge.py lines 137-143): read the parent header's
msg_id; if it is truthy (present and non-empty) return
`_msg_map.get(parent_id)` (`none` when the key is absent), else `None`. -/
def get_req_id (m : MsgMap) (msg : KMsg) : Option String :=
  match msg.parent_msg_id with
  | some p => if p = "" then none else (List.lookup p m).getD none
  | none => none

/-- An outbound response object, one constructor per emitted dict shape.
`startupError` is the id-less `{"type":"error",...}` emitted before the
main loop starts; `errorOut` is the error shape that carries an `id` key. -/
inductive Response where
  | ready (language : String)
  | startupError (ename evalue : String) (traceback : List String)
  | stream (id : Option String) (name text : String)
  | executeResult (id : Option String) (data : List (String × DataVal))
      (execution_count : Option Int)
  | displayData (id : Option String) (data : List (String × DataVal))
  | errorOut (id : Option String) (ename evalue : String) (traceback : List String)
  | statusOut (id : Option String) (state : String)
deriving DecidableEq, Repr

/-- The `id` field of a response: `none` when the emitted dict has no `id`
key at all, `some v` when it has one (with `v = none` serialising as
JSON `null`). -/
def responseId : Response → Option (Option String)
  | .ready _ => none
  | .startupError _ _ _ => none
  | .stream i _ _ => some i
  | .executeResult i _ _ => some i
  | .displayData i _ => some i
  | .errorOut i _ _ _ => some i
  | .statusOut i _ => some i

/-- Whether a response has `"type": "ready"`. -/
def isReady : Response → Bool
  | .ready _ => true
  | _ => false

/-- Whether a response has `"type": "error"` (either error shape). -/
def isErrorResp : Response → Bool
  | .startupError _ _ _ => true
  | .errorOut _ _ _ _ => true
  | _ => false

/-- The body of `iopub_listener` for one received message (bridge.py lines
156-199): classify by `msg_type`, resolve the request id, and build the
response — or none for filtered-out messages. -/
def handleIopub (m : MsgMap) (msg : KMsg) : Option Response :=
  let content := msg.content
  let req_id := get_req_id m msg
  if msg.msg_type = "stream" then
    some (.stream req_id (content.name.getD "stdout") (content.text.getD ""))
  else if msg.msg_type = "execute_result" then
    some (.executeResult req_id (flattenData content.data) content.execution_count)
  else if msg.msg_type = "display_data" then
    some (.displayData req_id (flattenData content.data))
  else if msg.msg_type = "error" then
    some (.errorOut req_id (content.ename.getD "Error") (content.evalue.getD "")
      content.traceback)
  else if msg.msg_type = "status" then
    let state := content.execution_state.getD ""
    if state = "idle" ∨ state = "busy" then some (.statusOut req_id state) else none
  else
    none

/-- An inbound request object (a parsed JSON dict): `req.get("id")`,
`req.get("action")`, `req.get("code", "")`.  A non-string value under one
of these keys behaves exactly like an unrecognized string, so `Option
String` loses nothing observable. -/
structure Req where
  id : Option String := none
  action : Option String := none
  code : Option String := none
deriving DecidableEq, Repr

/-- One line read from stdin, abstracted by its parse outcome:
`blank` strips to empty (skipped at line 80); `malformed` raises
`json.JSONDecodeError` (skipped at line 84); `nonObject` is valid JSON
that is not an object (e.g. `3`), on which `req.get("id")` at line 87
raises an uncaught `AttributeError`; `parsed` is a JSON object. -/
inductive RawLine where
  | blank
  | malformed
  | nonObject
  | parsed (req : Req)
deriving DecidableEq, Repr

/-- Outcomes of the external kernel operations the dispatcher invokes,
indexed by how many calls of that kind happened before:
`execMsgId n` is the kernel-assigned message id returned by the (n+1)-th
`kc.execute`; `interruptResult n = some e` means the (n+1)-th
`km.interrupt_kernel()` raised with `str(e)`; `restartResult t n = some e`
means the (n+1)-th `km.restart_kernel(now=True)` +
`kc.wait_for_ready(timeout := t)` raised with `str(e)`. -/
structure KernelOracle where
  execMsgId : Nat → String
  interruptResult : Nat → Option String
  restartResult : Nat → Nat → Option String

/-- The restart path waits for readiness with `timeout=30` (line 107). -/
def restartReadyTimeout : Nat := 30

/-- Dispatcher-side state: the correlation table plus call counters for
the oracles, and the codes submitted to the kernel so far. -/
structure DispState where
  msgMap : MsgMap := ([] : List (String × Option String))
  submitted : List String := []
  nExec : Nat := 0
  nInterrupt : Nat := 0
  nRestart : Nat := 0

/-- Result of processing one stdin line: `ok st out stop` (updated state,
emitted responses, whether `shutdown` broke the loop), or `crash st` when
an uncaught exception aborts the read loop. -/
inductive StepResult where
  | ok (st : DispState) (out : List Response) (stop : Bool)
  | crash (st : DispState)

/-- The state carried out of a step, crashed or not. -/
def StepResult.state : StepResult → DispState
  | .ok st _ _ => st
  | .crash st => st

/-- The responses emitted by a step. -/
def StepResult.out : StepResult → List Response
  | .ok _ o _ => o
  | .crash _ => []

/-- One iteration of the main stdin loop (bridge.py lines 78-115). -/
def dispatchLine (ko : KernelOracle) (st : DispState) (l : RawLine) : StepResult :=
  match l with
  | .blank => .ok st [] false
  | .malformed => .ok st [] false
  | .nonObject => .crash st
  | .parsed req =>
    let req_id := req.id
    if req.action = some "execute" then
      let code := req.code.getD ""
      let msg_id := ko.execMsgId st.nExec
      .ok { st with
              msgMap := register_msg st.msgMap msg_id req_id,
              submitted := st.submitted ++ [code],
              nExec := st.nExec + 1 } [] false
    else if req.action = some "interrupt" then
      match ko.interruptResult st.nInterrupt with
      | none => .ok { st with nInterrupt := st.nInterrupt + 1 } [] false
      | some ev =>
          .ok { st with nInterrupt := st.nInterrupt + 1 }
            [.errorOut req_id "InterruptError" ev []] false
    else if req.action = some "restart" then
      match ko.restartResult restartReadyTimeout st.nRestart with
      | none =>
          .ok { st with nRestart := st.nRestart + 1 }
            [.statusOut req_id "restarted"] false
      | some ev =>
          .ok { st with nRestart := st.nRestart + 1 }
            [.errorOut req_id "RestartError" ev []] false
    else if req.action = some "shutdown" then
      .ok st [] true
    else
      .ok st [] false

/-- Aggregate result of running the stdin loop over a list of lines. -/
structure RunOut where
  st : DispState
  out : List Response
  crashed : Bool

/-- The stdin loop over a whole input: stops after `shutdown`, aborts on a
crash, otherwise processes every line. -/
def runLines (ko : KernelOracle) : DispState → List RawLine → RunOut
  | st, [] => ⟨st, [], false⟩
  | st, l :: rest =>
    match dispatchLine ko st l with
    | .crash st' => ⟨st', [], true⟩
    | .ok st' rs stop =>
      if stop then ⟨st', rs, false⟩
      else
        let p := runLines ko st' rest
        ⟨p.st, rs ++ p.out, p.crashed⟩

/-- Environment for the startup sequence (bridge.py lines 24-67):
which imports succeed, whether `km.start_kernel()` raises (with exception
class name and message), whether `kc.wait_for_ready(timeout=30)` raises
`RuntimeError`, and the language name extracted from the kernel-info
reply (`none` when that best-effort query fails or lacks the field). -/
structure StartupEnv where
  jupyterClientInstalled : Bool
  ipykernelInstalled : Bool
  startKernelError : Option (String × String)
  waitReadyError : Option String
  languageReply : Option String

/-- Where startup leaves the process: exited with a code, or running. -/
inductive StartupOutcome where
  | failed (exitCode : Nat)
  | running
deriving DecidableEq, Repr

/-- The startup sequence: responses emitted and the resulting outcome. -/
def startup (env : StartupEnv) : List Response × StartupOutcome :=
  if ¬ env.jupyterClientInstalled then
    ([.startupError "ImportError"
        "jupyter_client not installed. Run: pip install jupyter ipykernel" []],
     .failed 1)
  else if ¬ env.ipykernelInstalled then
    ([.startupError "ImportError"
        "ipykernel not installed. Run: pip install ipykernel" []],
     .failed 1)
  else
    match env.startKernelError with
    | some (en, ev) => ([.startupError en ev []], .failed 1)
    | none =>
      match env.waitReadyError with
      | some ev => ([.startupError "KernelTimeout" ev []], .failed 1)
      | none => ([.ready (env.languageReply.getD "python")], .running)

/-- Whether the environment makes startup fail (missing dependency, spawn
failure, or readiness timeout). -/
def startupFailsB (env : StartupEnv) : Bool :=
  !env.jupyterClientInstalled || !env.ipykernelInstalled ||
    env.startKernelError.isSome || env.waitReadyError.isSome

/-- Outcome of one `kc.get_iopub_msg(timeout=0.5)` call: a message, or
"no event this cycle" (covering both a timeout and any other exception,
since the `except` clause catches everything). -/
inductive Poll where
  | noEvent
  | msg (m : KMsg)
deriving DecidableEq, Repr

/-- The IOPub listener loop (bridge.py lines 150-199) over a finite trace
of cycles; each cycle records the value of `stop_event.is_set()` observed
at the top of the loop and the poll outcome. -/
def iopubLoop (m : MsgMap) : List (Bool × Poll) → List Response
  | [] => []
  | (stopSet, p) :: rest =>
    if stopSet then []
    else
      match p with
      | .noEvent => iopubLoop m rest
      | .msg km => (handleIopub m km).toList ++ iopubLoop m rest

/-- How many cycles of the trace the listener loop actually enters before
exiting (it exits at the first cycle whose stop flag is set). -/
def iopubLoopIters : List (Bool × Poll) → Nat
  | [] => 0
  | (stopSet, _) :: rest => if stopSet then 0 else iopubLoopIters rest + 1

/-! ### The lock-guarded Output Writer (`emit`, bridge.py lines 204-209)

`emit` serialises a response and writes the resulting line to stdout while
holding `_emit_lock`.  We model the two writers (IOPub listener thread and
main dispatcher thread) as a small transition system over an abstract
alphabet `α` of stream symbols: each thread has a queue of lines to emit,
a line being a list of chunks (a single underlying write may be split into
several stream-level writes); a thread acquires the lock, appends its
chunks one at a time to the shared stream, and releases the lock when its
line is fully written.  Thread `false` is one writer, thread `true` the
other. -/

/-- A writer thread's status: between emits, or mid-emit holding the lock
with `written` already on the stream and `rest` still to write. -/
inductive WStat (α : Type) where
  | idle
  | writing (written : List α) (rest : List (List α))

/-- Shared state of the two writers: the output stream so far, the lock
holder, and each thread's status and queue of pending lines (each line a
list of chunks). -/
structure EmitSys (α : Type) where
  out : List α
  holder : Option Bool
  w0 : WStat α
  q0 : List (List (List α))
  w1 : WStat α
  q1 : List (List (List α))

/-- One scheduler step: a thread acquires the free lock and starts its
next line, writes one chunk of its current line, or finishes its line and
releases the lock.  Only the lock holder may touch the stream. -/
inductive EStep {α : Type} : EmitSys α → EmitSys α → Prop
  | acq0 {s : EmitSys α} {l q} (hh : s.holder = none) (hw : s.w0 = .idle)
      (hq : s.q0 = l :: q) :
      EStep s { s with holder := some false, w0 := .writing [] l, q0 := q }
  | write0 {s : EmitSys α} {w c cs} (hh : s.holder = some false)
      (hw : s.w0 = .writing w (c :: cs)) :
      EStep s { s with out := s.out ++ c, w0 := .writing (w ++ c) cs }
  | rel0 {s : EmitSys α} {w} (hh : s.holder = some false)
      (hw : s.w0 = .writing w []) :
      EStep s { s with holder := none, w0 := .idle }
  | acq1 {s : EmitSys α} {l q} (hh : s.holder = none) (hw : s.w1 = .idle)
      (hq : s.q1 = l :: q) :
      EStep s { s with holder := some true, w1 := .writing [] l, q1 := q }
  | write1 {s : EmitSys α} {w c cs} (hh : s.holder = some true)
      (hw : s.w1 = .writing w (c :: cs)) :
      EStep s { s with out := s.out ++ c, w1 := .writing (w ++ c) cs }
  | rel1 {s : EmitSys α} {w} (hh : s.holder = some true)
      (hw : s.w1 = .writing w []) :
      EStep s { s with holder := none, w1 := .idle }

/-- Reachability under any interleaving of scheduler steps. -/
inductive Reach {α : Type} (init : EmitSys α) : EmitSys α → Prop
  | refl : Reach init init
  | tail {s t : EmitSys α} : Reach init s → EStep s t → Reach init t

/-- Initial state: empty stream, lock free, both threads idle with their
whole queues pending. -/
def initSys {α : Type} (q0 q1 : List (List (List α))) : EmitSys α :=
  ⟨[], none, .idle, q0, .idle, q1⟩

/-- The full lines a queue will produce (each line's chunks concatenated). -/
def linesOf {α : Type} (q : List (List (List α))) : List (List α) :=
  q.map List.flatten

/-- The full lines a thread still has to finish, current line included. -/
def remLines {α : Type} : WStat α → List (List (List α)) → List (List α)
  | .idle, q => linesOf q
  | .writing w rest, q => (w ++ List.flatten rest) :: linesOf q

/-- The partial line a thread has written so far. -/
def writtenOf {α : Type} : WStat α → List α
  | .idle => []
  | .writing w _ => w

/-- `Interleave l a b`: `l` is an order-preserving interleaving of `a` and
`b`. -/
inductive Interleave {α : Type} : List α → List α → List α → Prop
  | nil : Interleave [] [] []
  | left {l a b} (x : α) : Interleave l a b → Interleave (x :: l) (x :: a) b
  | right {l a b} (x : α) : Interleave l a b → Interleave (x :: l) a (x :: b)

/-! ### Theorems -/

/-- C4: the payload flattening of `display_data`/`execute_result` values
joins list payloads — `["a","b","c"]` becomes the single string `"abc"` —
leaves an already-flat string unchanged, and is idempotent, both per value
and over a whole data dict. -/
theorem flatten_joins_and_idempotent :
    flattenVal (.lst ["a", "b", "c"]) = .str "abc"
    ∧ (∀ s : String, flattenVal (.str s) = .str s)
    ∧ (∀ v : DataVal, flattenVal (flattenVal v) = flattenVal v)
    ∧ (∀ d : List (String × DataVal), flattenData (flattenData d) = flattenData d) := by
  refine ⟨rfl, fun s => rfl, fun v => ?_, fun d => ?_⟩
  · cases v <;> rfl
  · induction d with
    | nil => rfl
    | cons kv rest ih =>
      simp only [flattenData, List.map_cons, List.map_map] at *
      refine congrArg₂ _ ?_ ih
      cases kv.2 <;> rfl

/-- C7: for a kernel `status` event the listener emits a response exactly
when the execution state is `idle` or `busy`; events of any unrecognized
kind produce no response. -/
theorem status_event_filter (m : MsgMap) (msg : KMsg) :
    (msg.msg_type = "status" →
      ((handleIopub m msg).isSome ↔
        (msg.content.execution_state.getD "" = "idle"
          ∨ msg.content.execution_state.getD "" = "busy")))
    ∧ (msg.msg_type ∉ ["stream", "execute_result", "display_data", "error", "status"] →
        handleIopub m msg = none) := by
  constructor
  · intro h
    simp only [handleIopub, h]
    norm_num
    split <;> simp_all
  · intro h
    simp only [List.mem_cons, List.mem_singleton] at h
    push_neg at h
    obtain ⟨h1, h2, h3, h4, h5⟩ := h
    simp [handleIopub, h1, h2, h3, h4, h5]

/-- C7 witness: a `status` event in state `busy` yields a response. -/
theorem status_event_filter_witness :
    (handleIopub ([] : MsgMap)
        { msg_type := "status",
          content := { execution_state := some "busy" } }).isSome ↔
      ((some "busy" : Option String).getD "" = "idle"
        ∨ (some "busy" : Option String).getD "" = "busy") :=
  (status_event_filter [] _).1 rfl

/-- C8: the IOPub listener loop exits exactly at the first cycle whose
stop flag is observed set (so it runs `findIdx` of the stop flags many
cycles regardless of poll outcomes), and a cycle whose poll times out or
raises is treated as no event: the loop just retries. -/
theorem iopub_loop_exits_only_on_stop (m : MsgMap) (p : Poll)
    (rest trace : List (Bool × Poll)) :
    iopubLoop m ((false, .noEvent) :: rest) = iopubLoop m rest
    ∧ iopubLoop m ((true, p) :: rest) = []
    ∧ iopubLoopIters trace = trace.findIdx (fun e => e.1) := by
  refine ⟨rfl, rfl, ?_⟩
  induction trace with
  | nil => rfl
  | cons e rest ih =>
    obtain ⟨s, p'⟩ := e
    cases s <;> simp [iopubLoopIters, List.findIdx_cons, ih]

/-- Every response built by the IOPub listener carries exactly the id that
`get_req_id` resolved for the triggering message. -/
theorem handleIopub_id_eq (m : MsgMap) (msg : KMsg) (r : Response)
    (h : handleIopub m msg = some r) :
    responseId r = some (get_req_id m msg) := by
  simp only [handleIopub] at h
  split_ifs at h <;> injection h with h <;> subst h <;> rfl

/-- Which `action` strings the dispatcher recognizes. -/
def recognizedAction (a : Option String) : Bool :=
  a == some "execute" || a == some "interrupt" || a == some "restart"
    || a == some "shutdown"

/-- Lines the dispatcher silently skips: blank lines, unparseable lines,
and object lines whose action is missing or unrecognized. -/
def ignoredLine : RawLine → Bool
  | .blank => true
  | .malformed => true
  | .nonObject => false
  | .parsed req => !recognizedAction req.action

/-- A concrete oracle: distinct message ids, every interrupt and restart
raising with message `"boom"`. -/
def koBoom : KernelOracle :=
  ⟨fun n => "m" ++ toString n, fun _ => some "boom", fun _ _ => some "boom"⟩

/-- A concrete restart request carrying id `"r1"`. -/
def reqRestart : Req := { id := some "r1", action := some "restart" }

/-- C3 (amended): a blank line, an unparseable line, or an object line
with a missing/unrecognized action emits nothing, leaves the state
untouched, and the loop goes on to the remaining lines. -/
theorem ignored_lines_no_response (ko : KernelOracle) (st : DispState)
    (l : RawLine) (rest : List RawLine) (h : ignoredLine l = true) :
    dispatchLine ko st l = .ok st [] false
    ∧ runLines ko st (l :: rest) = runLines ko st rest := by
  have h1 : dispatchLine ko st l = .ok st [] false := by
    cases l with
    | blank => rfl
    | malformed => rfl
    | nonObject => simp [ignoredLine] at h
    | parsed req =>
      simp only [ignoredLine, recognizedAction, Bool.not_eq_true', Bool.or_eq_false_iff,
        beq_eq_false_iff_ne, ne_eq] at h
      obtain ⟨⟨⟨ha, hb⟩, hc⟩, hd⟩ := h
      simp [dispatchLine, ha, hb, hc, hd]
  refine ⟨h1, ?_⟩
  simp [runLines, h1]

/-- C3 witness: an unparseable line is skipped and the loop continues. -/
theorem ignored_lines_no_response_witness :
    dispatchLine koBoom {} .malformed = .ok {} [] false
    ∧ runLines koBoom {} [.malformed] = runLines koBoom {} [] :=
  ignored_lines_no_response koBoom {} .malformed [] rfl

/-- C3 counterexample: the inbound line `3` is valid JSON with a missing
action, yet `req.get("id")` raises an uncaught `AttributeError`: the
dispatcher crashes and the loop never reaches the next line (which on its
own would have produced a response). -/
theorem non_object_line_crashes :
    dispatchLine koBoom {} .nonObject = .crash {}
    ∧ (runLines koBoom {} [.nonObject, .parsed reqRestart]).crashed = true
    ∧ (runLines koBoom {} [.nonObject, .parsed reqRestart]).out = []
    ∧ (runLines koBoom {} [.parsed reqRestart]).out
        = [.errorOut (some "r1") "RestartError" "boom" []] := by
  exact ⟨rfl, rfl, rfl, rfl⟩

/-- C6: a restart request yields exactly one response, a
`status/restarted` carrying the request's id when the restart and the
bounded readiness wait (timeout 30) succeed, and a `RestartError` error
carrying the request's id otherwise. -/
theorem restart_single_response (ko : KernelOracle) (st : DispState) (req : Req)
    (hact : req.action = some "restart") :
    ((dispatchLine ko st (.parsed req)).out).length = 1
    ∧ (ko.restartResult restartReadyTimeout st.nRestart = none →
        (dispatchLine ko st (.parsed req)).out = [.statusOut req.id "restarted"])
    ∧ (∀ ev, ko.restartResult restartReadyTimeout st.nRestart = some ev →
        (dispatchLine ko st (.parsed req)).out = [.errorOut req.id "RestartError" ev []])
    ∧ (∀ r ∈ (dispatchLine ko st (.parsed req)).out, responseId r = some req.id) := by
  cases hR : ko.restartResult restartReadyTimeout st.nRestart <;>
    simp_all [dispatchLine, hact, StepResult.out, responseId]

/-- C6 witness: a failing restart yields the single `RestartError`. -/
theorem restart_single_response_witness :
    ((dispatchLine koBoom {} (.parsed reqRestart)).out).length = 1
    ∧ (koBoom.restartResult restartReadyTimeout (DispState.nRestart {}) = none →
        (dispatchLine koBoom {} (.parsed reqRestart)).out
          = [.statusOut reqRestart.id "restarted"])
    ∧ (∀ ev, koBoom.restartResult restartReadyTimeout (DispState.nRestart {}) = some ev →
        (dispatchLine koBoom {} (.parsed reqRestart)).out
          = [.errorOut reqRestart.id "RestartError" ev []])
    ∧ (∀ r ∈ (dispatchLine koBoom {} (.parsed reqRestart)).out,
        responseId r = some reqRestart.id) :=
  restart_single_response koBoom {} reqRestart rfl

/-- C2 (amended): every response built by the Event Relay carries the id
resolved by the Correlation Table lookup on the triggering event's parent
id; the dispatcher's own command responses (interrupt/restart outcomes)
instead carry the originating request's id verbatim. -/
theorem response_id_provenance :
    (∀ (m : MsgMap) (msg : KMsg) (r : Response),
        handleIopub m msg = some r → responseId r = some (get_req_id m msg))
    ∧ (∀ (ko : KernelOracle) (st : DispState) (req : Req) (r : Response),
        r ∈ (dispatchLine ko st (.parsed req)).out → responseId r = some req.id) := by
  refine ⟨handleIopub_id_eq, ?_⟩
  intro ko st req r hr
  simp only [dispatchLine] at hr
  split_ifs at hr with h1 h2 h3 h4
  · simp [StepResult.out] at hr
  · cases hI : ko.interruptResult st.nInterrupt <;>
      rw [hI] at hr <;> simp_all [StepResult.out, responseId]
  · cases hR : ko.restartResult restartReadyTimeout st.nRestart <;>
      rw [hR] at hr <;> simp_all [StepResult.out, responseId]
  · simp [StepResult.out] at hr
  · simp [StepResult.out] at hr

/-- C2 witness: a relayed `stream` event resolves through the table. -/
theorem response_id_provenance_witness :
    responseId (.stream (some "r1") "stdout" "") =
      some (get_req_id [("k", some "r1")]
        { msg_type := "stream", parent_msg_id := some "k", content := {} }) :=
  response_id_provenance.1 _ _ _ rfl

/-- C2 counterexample: a failing restart emits an error response whose id
`"r1"` is taken from the request itself while the Correlation Table is
empty, so no table lookup can have produced it. -/
theorem dispatcher_id_not_from_table :
    (dispatchLine koBoom {} (.parsed reqRestart)).out
      = [.errorOut (some "r1") "RestartError" "boom" []]
    ∧ DispState.msgMap {} = ([] : MsgMap)
    ∧ ¬ ∃ p : String, List.lookup p (DispState.msgMap {}) = some (some "r1") := by
  refine ⟨rfl, rfl, ?_⟩
  rintro ⟨p, hp⟩
  simp [DispState.msgMap, List.lookup] at hp

/-- C5: any startup failure (missing dependency, kernel spawn failure, or
readiness timeout) emits exactly one response, that response is an error
and not a `ready`, and the process exits with the non-zero status 1. -/
theorem startup_failure_single_error (env : StartupEnv)
    (h : startupFailsB env = true) :
    (startup env).2 = .failed 1
    ∧ (∀ c, (startup env).2 = .failed c → c ≠ 0)
    ∧ (startup env).1.length = 1
    ∧ (∀ r ∈ (startup env).1, isErrorResp r = true ∧ isReady r = false) := by
  rcases env with ⟨jc, ipy, sk, wr, lang⟩
  cases jc <;> cases ipy <;> rcases sk with _ | ⟨en, ev⟩ <;> rcases wr with _ | ev2 <;>
    simp_all [startup, startupFailsB, isErrorResp, isReady]

/-- C5 witness: with `jupyter_client` missing, startup emits one error
response and exits non-zero. -/
theorem startup_failure_single_error_witness :
    (startup ⟨false, true, none, none, none⟩).2 = .failed 1
    ∧ (∀ c, (startup ⟨false, true, none, none, none⟩).2 = .failed c → c ≠ 0)
    ∧ (startup ⟨false, true, none, none, none⟩).1.length = 1
    ∧ (∀ r ∈ (startup ⟨false, true, none, none, none⟩).1,
        isErrorResp r = true ∧ isReady r = false) :=
  startup_failure_single_error _ rfl

/-- Dispatching an `execute` request emits nothing, submits the code, and
registers the kernel-assigned message id against the request id in the
same step. -/
theorem dispatchLine_execute (ko : KernelOracle) (st : DispState) (req : Req)
    (h : req.action = some "execute") :
    dispatchLine ko st (.parsed req)
      = .ok { st with
                msgMap := register_msg st.msgMap (ko.execMsgId st.nExec) req.id,
                submitted := st.submitted ++ [req.code.getD ""],
                nExec := st.nExec + 1 } [] false := by
  simp [dispatchLine, h]

/-- One dispatched line either leaves the correlation table and the
execute counter unchanged, or registers exactly the current execute
call's kernel id and bumps the counter by one. -/
theorem dispatchLine_map_cases (ko : KernelOracle) (st : DispState) (l : RawLine) :
    ((dispatchLine ko st l).state.msgMap = st.msgMap
      ∧ (dispatchLine ko st l).state.nExec = st.nExec)
    ∨ (∃ rid, (dispatchLine ko st l).state.msgMap
          = (ko.execMsgId st.nExec, rid) :: st.msgMap
        ∧ (dispatchLine ko st l).state.nExec = st.nExec + 1) := by
  cases l with
  | blank => exact Or.inl ⟨rfl, rfl⟩
  | malformed => exact Or.inl ⟨rfl, rfl⟩
  | nonObject => exact Or.inl ⟨rfl, rfl⟩
  | parsed req =>
    simp only [dispatchLine]
    split_ifs with h1 h2 h3 h4
    · exact Or.inr ⟨req.id, rfl, rfl⟩
    · cases ko.interruptResult st.nInterrupt <;> exact Or.inl ⟨rfl, rfl⟩
    · cases ko.restartResult restartReadyTimeout st.nRestart <;> exact Or.inl ⟨rfl, rfl⟩
    · exact Or.inl ⟨rfl, rfl⟩
    · exact Or.inl ⟨rfl, rfl⟩

/-- Association-list lookup skips a binding with a different key. -/
theorem lookup_cons_ne {β : Type} (k k2 : String) (v : β) (m : List (String × β))
    (h : k ≠ k2) : List.lookup k ((k2, v) :: m) = List.lookup k m := by
  have hb : (k == k2) = false := beq_eq_false_iff_ne.mpr h
  simp [List.lookup, hb]

/-- Association-list lookup finds the binding just added. -/
theorem lookup_cons_self {β : Type} (k : String) (v : β) (m : List (String × β)) :
    List.lookup k ((k, v) :: m) = some v := by
  simp [List.lookup]

/-- Running further input lines never disturbs a correlation entry whose
key differs from every kernel message id a later execute call can
return. -/
theorem runLines_lookup_preserved (ko : KernelOracle) :
    ∀ (lines : List RawLine) (st : DispState) (k : String),
      (∀ n, st.nExec ≤ n → ko.execMsgId n ≠ k) →
      List.lookup k (runLines ko st lines).st.msgMap = List.lookup k st.msgMap := by
  intro lines
  induction lines with
  | nil => intro st k _; rfl
  | cons l rest ih =>
    intro st k h
    have hmc := dispatchLine_map_cases ko st l
    have hmap : List.lookup k (dispatchLine ko st l).state.msgMap
        = List.lookup k st.msgMap := by
      rcases hmc with ⟨hm, _⟩ | ⟨rid, hm, _⟩
      · rw [hm]
      · rw [hm]
        exact lookup_cons_ne k _ rid st.msgMap (fun he => h st.nExec le_rfl he.symm)
    have hnex : st.nExec ≤ (dispatchLine ko st l).state.nExec := by
      rcases hmc with ⟨_, hn⟩ | ⟨_, _, hn⟩
      · rw [hn]
      · rw [hn]
        omega
    cases hd : dispatchLine ko st l with
    | ok st' rs stop =>
      rw [hd] at hmap hnex
      simp only [StepResult.state] at hmap hnex
      cases stop with
      | true => simp only [runLines, hd, if_pos]; exact hmap
      | false =>
        simp only [runLines, hd, Bool.false_eq_true, if_false]
        rw [ih st' k (fun n hn => h n (le_trans hnex hn))]
        exact hmap
    | crash st' =>
      rw [hd] at hmap
      simp only [StepResult.state] at hmap
      simp only [runLines, hd]
      exact hmap

/-- After an execute dispatch, the registered kernel message id resolves
to the request's id, both immediately and after any further lines, as
long as later execute calls return distinct kernel ids. -/
theorem execute_resolves (ko : KernelOracle) (st : DispState) (req : Req)
    (rest : List RawLine) (msg : KMsg)
    (hact : req.action = some "execute")
    (hne : ko.execMsgId st.nExec ≠ "")
    (hfresh : ∀ n, st.nExec < n → ko.execMsgId n ≠ ko.execMsgId st.nExec)
    (hpar : msg.parent_msg_id = some (ko.execMsgId st.nExec)) :
    get_req_id (dispatchLine ko st (.parsed req)).state.msgMap msg = req.id
    ∧ get_req_id
        (runLines ko (dispatchLine ko st (.parsed req)).state rest).st.msgMap msg
      = req.id := by
  have hd := dispatchLine_execute ko st req hact
  have hstate : (dispatchLine ko st (.parsed req)).state
      = { st with msgMap := register_msg st.msgMap (ko.execMsgId st.nExec) req.id,
                  submitted := st.submitted ++ [req.code.getD ""],
                  nExec := st.nExec + 1 } := by rw [hd]; rfl
  have hlook : List.lookup (ko.execMsgId st.nExec)
      (dispatchLine ko st (.parsed req)).state.msgMap = some req.id := by
    rw [hstate]
    exact lookup_cons_self _ _ _
  have hpres : List.lookup (ko.execMsgId st.nExec)
      (runLines ko (dispatchLine ko st (.parsed req)).state rest).st.msgMap
      = some req.id := by
    rw [runLines_lookup_preserved ko rest _ _ ?_, hlook]
    intro n hn
    rw [hstate] at hn
    exact hfresh n (by simpa using hn)
  constructor
  · simp [get_req_id, hpar, hne, hlook]
  · simp [get_req_id, hpar, hne, hpres]

/-- C1: after the dispatcher submits an execute request's code and
registers the returned kernel message id, every subsequent kernel event
whose parent msg_id equals that kernel message id resolves through the
Correlation Table to the request's id — immediately and after any further
input lines (kernel ids of later execute calls being distinct) — and
every Response the relay emits for such an event carries that id. -/
theorem execute_correlation (ko : KernelOracle) (st : DispState) (req : Req)
    (rest : List RawLine) (msg : KMsg)
    (hact : req.action = some "execute")
    (hne : ko.execMsgId st.nExec ≠ "")
    (hfresh : ∀ n, st.nExec < n → ko.execMsgId n ≠ ko.execMsgId st.nExec)
    (hpar : msg.parent_msg_id = some (ko.execMsgId st.nExec)) :
    get_req_id (dispatchLine ko st (.parsed req)).state.msgMap msg = req.id
    ∧ get_req_id
        (runLines ko (dispatchLine ko st (.parsed req)).state rest).st.msgMap msg
      = req.id
    ∧ (∀ r, handleIopub
          (runLines ko (dispatchLine ko st (.parsed req)).state rest).st.msgMap msg
            = some r →
        responseId r = some req.id) := by
  obtain ⟨h1, h2⟩ := execute_resolves ko st req rest msg hact hne hfresh hpar
  refine ⟨h1, h2, fun r hr => ?_⟩
  rw [handleIopub_id_eq _ _ _ hr, h2]

/-- A concrete oracle for witnesses: the first execute call returns kernel
id `"k"`, all later ones `"j"`; interrupts and restarts succeed. -/
def koWitness : KernelOracle :=
  ⟨fun n => if n = 0 then "k" else "j", fun _ => none, fun _ _ => none⟩

/-- A concrete execute request carrying id `"r1"`. -/
def reqExec : Req := { id := some "r1", action := some "execute", code := some "1+1" }

/-- A concrete stream event whose parent is kernel message `"k"`. -/
def msgStreamK : KMsg :=
  { msg_type := "stream", parent_msg_id := some "k",
    content := { name := some "stdout", text := some "2" } }

/-- C1 witness: a concrete execute request with id `"r1"` whose stream
event resolves to `"r1"`. -/
theorem execute_correlation_witness :
    get_req_id (dispatchLine koWitness {} (.parsed reqExec)).state.msgMap msgStreamK
      = some "r1"
    ∧ get_req_id
        (runLines koWitness (dispatchLine koWitness {} (.parsed reqExec)).state
          []).st.msgMap msgStreamK
      = some "r1"
    ∧ (∀ r, handleIopub
          (runLines koWitness (dispatchLine koWitness {} (.parsed reqExec)).state
            []).st.msgMap msgStreamK
            = some r →
        responseId r = some (some "r1")) :=
  execute_correlation koWitness {} reqExec [] msgStreamK rfl (by decide)
    (fun n hn => by
      have hz : n ≠ 0 := by omega
      simp [koWitness, hz])
    rfl

/-- C10: an execute request without an `id` is still submitted and still
registers a correlation entry mapping the kernel message id to null, so a
later event for that execution is answered with a Response whose id field
is null — not dropped and not given a fabricated id. -/
theorem execute_absent_id (ko : KernelOracle) (st : DispState) (req : Req)
    (rest : List RawLine) (msg : KMsg)
    (hact : req.action = some "execute") (hid : req.id = none)
    (hne : ko.execMsgId st.nExec ≠ "")
    (hfresh : ∀ n, st.nExec < n → ko.execMsgId n ≠ ko.execMsgId st.nExec)
    (hpar : msg.parent_msg_id = some (ko.execMsgId st.nExec))
    (hty : msg.msg_type = "stream") :
    dispatchLine ko st (.parsed req)
      = .ok { st with msgMap := (ko.execMsgId st.nExec, none) :: st.msgMap,
                      submitted := st.submitted ++ [req.code.getD ""],
                      nExec := st.nExec + 1 } [] false
    ∧ (∃ r, handleIopub
          (runLines ko (dispatchLine ko st (.parsed req)).state rest).st.msgMap msg
            = some r
        ∧ responseId r = some none) := by
  have hd := dispatchLine_execute ko st req hact
  rw [hid] at hd
  refine ⟨hd, ?_⟩
  obtain ⟨-, h2⟩ := execute_resolves ko st req rest msg hact hne hfresh hpar
  rw [hid] at h2
  refine ⟨.stream
      (get_req_id
        (runLines ko (dispatchLine ko st (.parsed req)).state rest).st.msgMap msg)
      (msg.content.name.getD "stdout") (msg.content.text.getD ""), ?_, ?_⟩
  · simp [handleIopub, hty]
  · simp [responseId, h2]

/-- A concrete execute request with no id. -/
def reqExecNoId : Req := { id := none, action := some "execute", code := some "1+1" }

/-- C10 witness: an id-less execute still registers `"k" ↦ null` and its
stream event is answered with a null id. -/
theorem execute_absent_id_witness :
    dispatchLine koWitness {} (.parsed reqExecNoId)
      = .ok { ({} : DispState) with
                msgMap := [("k", none)],
                submitted := ["1+1"],
                nExec := 1 } [] false
    ∧ (∃ r, handleIopub
          (runLines koWitness (dispatchLine koWitness {} (.parsed reqExecNoId)).state
            []).st.msgMap msgStreamK
            = some r
        ∧ responseId r = some none) :=
  execute_absent_id koWitness {} reqExecNoId [] msgStreamK rfl rfl (by decide)
    (fun n hn => by
      have hz : n ≠ 0 := by omega
      simp [koWitness, hz])
    rfl rfl

/-- Appending one element to an interleaving and to its left source. -/
theorem Interleave.push_left {α : Type} {l a b : List α} (x : α)
    (h : Interleave l a b) : Interleave (l ++ [x]) (a ++ [x]) b := by
  induction h with
  | nil => exact Interleave.left x Interleave.nil
  | left y _ ih => exact Interleave.left y ih
  | right y _ ih => exact Interleave.right y ih

/-- Appending one element to an interleaving and to its right source. -/
theorem Interleave.push_right {α : Type} {l a b : List α} (x : α)
    (h : Interleave l a b) : Interleave (l ++ [x]) a (b ++ [x]) := by
  induction h with
  | nil => exact Interleave.right x Interleave.nil
  | left y _ ih => exact Interleave.left y ih
  | right y _ ih => exact Interleave.right y ih

/-- Invariant of the emit system: only the lock holder is mid-line, and
the stream so far is a full-line interleaving of each thread's completed
lines followed by the lock holder's partial line.  `L0`/`L1` are the full
line sequences each thread will have emitted at quiescence. -/
def EmitInv {α : Type} (L0 L1 : List (List α)) (s : EmitSys α) : Prop :=
  (s.w0 ≠ .idle → s.holder = some false)
  ∧ (s.w1 ≠ .idle → s.holder = some true)
  ∧ ∃ d0 d1 hist,
      L0 = d0 ++ remLines s.w0 s.q0
      ∧ L1 = d1 ++ remLines s.w1 s.q1
      ∧ Interleave hist d0 d1
      ∧ s.out = hist.flatten ++ writtenOf s.w0 ++ writtenOf s.w1

/-- The invariant holds initially. -/
theorem EmitInv_init {α : Type} (q0 q1 : List (List (List α))) :
    EmitInv (linesOf q0) (linesOf q1) (initSys q0 q1) :=
  ⟨fun h => absurd rfl h, fun h => absurd rfl h, [], [], [], rfl, rfl, .nil, rfl⟩

/-- Every scheduler step preserves the invariant. -/
theorem EmitInv_step {α : Type} {L0 L1 : List (List α)} {s t : EmitSys α}
    (hinv : EmitInv L0 L1 s) (hs : EStep s t) : EmitInv L0 L1 t := by
  obtain ⟨hd0, hd1, d0, d1, hist, hL0, hL1, hint, hout⟩ := hinv
  cases hs with
  | acq0 hh hw hq =>
    refine ⟨fun _ => rfl, ?_, d0, d1, hist, ?_, hL1, hint, ?_⟩
    · intro h1
      have h2 := hd1 h1
      rw [hh] at h2
      simp at h2
    · rw [hL0, hw, hq]
      simp [remLines, linesOf]
    · rw [hout, hw]
      simp [writtenOf]
  | write0 hh hw =>
    have hw1 : s.w1 = .idle := by
      by_contra h1
      have h2 := hd1 h1
      rw [hh] at h2
      simp at h2
    refine ⟨fun _ => hh, fun h1 => hd1 h1, d0, d1, hist, ?_, hL1, hint, ?_⟩
    · rw [hL0, hw]
      simp [remLines, List.append_assoc]
    · rw [hout, hw, hw1]
      simp [writtenOf, List.append_assoc]
  | rel0 hh hw =>
    rename_i w
    have hw1 : s.w1 = .idle := by
      by_contra h1
      have h2 := hd1 h1
      rw [hh] at h2
      simp at h2
    refine ⟨fun h => absurd rfl h, ?_, d0 ++ [w], d1, hist ++ [w], ?_, hL1,
        Interleave.push_left w hint, ?_⟩
    · intro h1
      have h2 := hd1 h1
      rw [hh] at h2
      simp at h2
    · rw [hL0, hw]
      simp [remLines, linesOf]
    · rw [hout, hw, hw1]
      simp [writtenOf]
  | acq1 hh hw hq =>
    refine ⟨?_, fun _ => rfl, d0, d1, hist, hL0, ?_, hint, ?_⟩
    · intro h0
      have h2 := hd0 h0
      rw [hh] at h2
      simp at h2
    · rw [hL1, hw, hq]
      simp [remLines, linesOf]
    · rw [hout, hw]
      simp [writtenOf]
  | write1 hh hw =>
    have hw0 : s.w0 = .idle := by
      by_contra h0
      have h2 := hd0 h0
      rw [hh] at h2
      simp at h2
    refine ⟨fun h0 => hd0 h0, fun _ => hh, d0, d1, hist, hL0, ?_, hint, ?_⟩
    · rw [hL1, hw]
      simp [remLines, List.append_assoc]
    · rw [hout, hw, hw0]
      simp [writtenOf, List.append_assoc]
  | rel1 hh hw =>
    rename_i w
    have hw0 : s.w0 = .idle := by
      by_contra h0
      have h2 := hd0 h0
      rw [hh] at h2
      simp at h2
    refine ⟨?_, fun h => absurd rfl h, d0, d1 ++ [w], hist ++ [w], hL0, ?_,
        Interleave.push_right w hint, ?_⟩
    · intro h0
      have h2 := hd0 h0
      rw [hh] at h2
      simp at h2
    · rw [hL1, hw]
      simp [remLines, linesOf]
    · rw [hout, hw, hw0]
      simp [writtenOf]

/-- The invariant holds in every reachable state. -/
theorem EmitInv_reach {α : Type} (q0 q1 : List (List (List α))) {s : EmitSys α}
    (h : Reach (initSys q0 q1) s) :
    EmitInv (linesOf q0) (linesOf q1) s := by
  induction h with
  | refl => exact EmitInv_init q0 q1
  | tail _ hs ih => exact EmitInv_step ih hs

/-- C9: under any interleaving of the two writers, once both are idle
with empty queues the outbound stream is exactly a concatenation of
complete lines, an order-preserving merge of the two writers' line
sequences — no partial line of one writer is ever interleaved with the
other's. -/
theorem emit_line_integrity {α : Type} (q0 q1 : List (List (List α)))
    (s : EmitSys α) (h : Reach (initSys q0 q1) s)
    (h0 : s.w0 = .idle) (h1 : s.w1 = .idle)
    (hq0 : s.q0 = []) (hq1 : s.q1 = []) :
    ∃ hist, Interleave hist (linesOf q0) (linesOf q1) ∧ s.out = hist.flatten := by
  obtain ⟨-, -, d0, d1, hist, hL0, hL1, hint, hout⟩ := EmitInv_reach q0 q1 h
  rw [h0, hq0] at hL0
  rw [h1, hq1] at hL1
  simp only [remLines, linesOf, List.map_nil, List.append_nil] at hL0 hL1
  subst hL0
  subst hL1
  refine ⟨hist, hint, ?_⟩
  rw [hout, h0, h1]
  simp [writtenOf]

/-- C9 witness: one writer emits the line `[0, 1]` in two chunks while the
other has nothing to write; the final stream is that complete line. -/
theorem emit_line_integrity_witness :
    ∃ hist, Interleave hist (linesOf [[[0], [1]]])
        (linesOf ([] : List (List (List Nat))))
      ∧ ([0, 1] : List Nat) = hist.flatten := by
  refine emit_line_integrity [[[0], [1]]] []
    ⟨[0, 1], none, .idle, [], .idle, []⟩ ?_ rfl rfl rfl rfl
  exact Reach.tail (Reach.tail (Reach.tail (Reach.tail Reach.refl
    (EStep.acq0 rfl rfl rfl)) (EStep.write0 rfl rfl)) (EStep.write0 rfl rfl))
    (EStep.rel0 rfl rfl)

end Bridge
